import Mathlib

/-!
Shallow embedding of the leaf-area measurement core of `src/app.py`
(functions `detectar_qrcode_e_calcular_escala` and `segmentar_folha`).

External OpenCV capabilities (QR detection, BGR→HSV color conversion,
contour extraction, drawing primitives) are modelled as an abstract
backend record `Cv`; the repository's own logic (scale arithmetic,
thresholding, morphology composition, contour selection, area
conversion, result shaping) is embedded concretely.
-/

namespace LeafApp

/-- A 3-channel 8-bit pixel sample (BGR for input images, HSV after
`cvtColor`).  Channel values live in `ℕ`; the 0–255 range is not needed
by any claim. -/
structure Px where
  c0 : ℕ
  c1 : ℕ
  c2 : ℕ
deriving DecidableEq, Repr

/-- A raster image: width, height and a pixel function (coordinates
outside the `width × height` window are irrelevant padding). -/
structure Image where
  width : ℕ
  height : ℕ
  pix : ℤ → ℤ → Px

/-- A single-channel 8-bit mask, as produced by `cv2.inRange`
(values 0 or 255). -/
structure Mask where
  width : ℕ
  height : ℕ
  pix : ℤ → ℤ → ℕ

/-- A 2-D point with rational coordinates, modelling the `float32`
corner coordinates returned by `cv2.QRCodeDetector.detectAndDecode`. -/
structure Pt where
  x : ℚ
  y : ℚ
deriving DecidableEq, Repr

/-- The four corners of a detected QR code, in detector order
(`vertices` of shape `(1, 4, 2)` in the source). -/
structure Corners where
  p0 : Pt
  p1 : Pt
  p2 : Pt
  p3 : Pt
deriving DecidableEq, Repr

/-- A contour: the list of boundary points returned for one connected
region by `cv2.findContours`. -/
abbrev Contour : Type := List (ℤ × ℤ)

/-- Contour retrieval modes of `cv2.findContours`; the source passes
`cv2.RETR_EXTERNAL` (external boundaries only). -/
inductive RetrievalMode where
  | external
  | list
  | ccomp
  | tree
deriving DecidableEq, Repr

/-- Contour approximation modes of `cv2.findContours`; the source
passes `cv2.CHAIN_APPROX_SIMPLE`. -/
inductive ApproxMode where
  | chainApproxNone
  | chainApproxSimple
deriving DecidableEq, Repr

/-- Abstract OpenCV backend: the external library capabilities the
repository code calls.  `qrCorners` models
`cv2.QRCodeDetector().detectAndDecode` returning the corner array (or
`None`); `cvtColor` models `cv2.cvtColor(·, COLOR_BGR2HSV)`;
`findContours` models `cv2.findContours` (mask, retrieval mode,
approximation mode); `drawContours` models in-place contour drawing
(image, contour list, contour index, BGR color, thickness);
`putText` models in-place text rendering of the area label
`"Área da folha: {area:.2f} cm²"` (image, area value, position, BGR
color, thickness). -/
structure Cv where
  qrCorners : Image → Option Corners
  cvtColor : Image → Image
  findContours : Mask → RetrievalMode → ApproxMode → List Contour
  drawContours : Image → List Contour → ℤ → Px → ℕ → Image
  putText : Image → ℝ → ℤ × ℤ → Px → ℕ → Image

/-- Truncation toward zero, the semantics of numpy's `astype(int)`
applied to the corner array (`vertices = vertices.astype(int)`). -/
def truncQ (q : ℚ) : ℤ :=
  if 0 ≤ q then ⌊q⌋ else ⌈q⌉

/-- Truncate both coordinates of a corner point toward zero. -/
def truncPt (p : Pt) : ℤ × ℤ :=
  (truncQ p.x, truncQ p.y)

/-- Squared Euclidean distance between two integer points. -/
def sqNorm (a b : ℤ × ℤ) : ℤ :=
  (a.1 - b.1) ^ 2 + (a.2 - b.2) ^ 2

/-- `np.linalg.norm (a - b)` for 2-D integer vectors: the Euclidean
distance. -/
noncomputable def linalgNorm (a b : ℤ × ℤ) : ℝ :=
  Real.sqrt ((sqNorm a b : ℤ) : ℝ)

/-- The QR code's real-world side length in cm (`tamanho_real_cm = 3.6`
in the source). -/
noncomputable def tamanho_real_cm : ℝ := 3.6

/-- The scale computation of `detectar_qrcode_e_calcular_escala` once
corners are available: cast the corners to `int` (truncation), measure
`largura_pixels` as the distance from corner 0 to corner 1 and
`altura_pixels` as the distance from corner 2 to corner 3, and divide
the real side length by the larger of the two. -/
noncomputable def escalaOf (v : Corners) : ℝ :=
  tamanho_real_cm /
    max (linalgNorm (truncPt v.p0) (truncPt v.p1))
        (linalgNorm (truncPt v.p2) (truncPt v.p3))

/-- Embedding of `detectar_qrcode_e_calcular_escala` (src/app.py lines
11–36): ask the detector for corners; if present, return the scale,
otherwise `none`. -/
noncomputable def detectar_qrcode_e_calcular_escala (cv : Cv) (imagem : Image) : Option ℝ :=
  match cv.qrCorners imagem with
  | some vertices => some (escalaOf vertices)
  | none => none

/-- The scale formula as the spec's words state it (§4.2 / claim C2):
`realWorldSideLengthCm / max(widthPixels, heightPixels)` with the
Euclidean distances taken directly on the detector's (possibly
fractional) corner coordinates, with no truncation.  Stated for
comparison with `escalaOf`, which embeds the source. -/
noncomputable def specScaleNoTrunc (v : Corners) : ℝ :=
  tamanho_real_cm /
    max (Real.sqrt (((v.p0.x - v.p1.x : ℚ) : ℝ) ^ 2 + ((v.p0.y - v.p1.y : ℚ) : ℝ) ^ 2))
        (Real.sqrt (((v.p2.x - v.p3.x : ℚ) : ℝ) ^ 2 + ((v.p2.y - v.p3.y : ℚ) : ℝ) ^ 2))

/-- Lower HSV bound for leaf-green pixels
(`lower_green = np.array([35, 55, 50])`). -/
def lower_green : Px := ⟨35, 55, 50⟩

/-- Upper HSV bound for leaf-green pixels
(`upper_green = np.array([90, 255, 255])`). -/
def upper_green : Px := ⟨90, 255, 255⟩

/-- Componentwise inclusive band membership, the per-pixel test of
`cv2.inRange(src, lower, upper)`. -/
def pixInRange (lo hi p : Px) : Prop :=
  lo.c0 ≤ p.c0 ∧ p.c0 ≤ hi.c0 ∧
  lo.c1 ≤ p.c1 ∧ p.c1 ≤ hi.c1 ∧
  lo.c2 ≤ p.c2 ∧ p.c2 ≤ hi.c2

instance (lo hi p : Px) : Decidable (pixInRange lo hi p) := by
  unfold pixInRange; infer_instance

/-- `cv2.inRange(img, lo, hi)` : a mask holding 255 where the pixel is
inside the band (inclusive, componentwise) and 0 elsewhere. -/
def inRangeMask (img : Image) (lo hi : Px) : Mask :=
  ⟨img.width, img.height, fun x y => if pixInRange lo hi (img.pix x y) then 255 else 0⟩

/-- The 25 offsets of the 5×5 square structuring element
(`kernel = np.ones((5, 5), np.uint8)`), anchored at its center. -/
def kernel5 : List (ℤ × ℤ) :=
  [(-2, -2), (-2, -1), (-2, 0), (-2, 1), (-2, 2),
   (-1, -2), (-1, -1), (-1, 0), (-1, 1), (-1, 2),
   (0, -2), (0, -1), (0, 0), (0, 1), (0, 2),
   (1, -2), (1, -1), (1, 0), (1, 1), (1, 2),
   (2, -2), (2, -1), (2, 0), (2, 1), (2, 2)]

/-- Whether `(x, y)` lies inside the mask's pixel grid. -/
def maskInBounds (m : Mask) (x y : ℤ) : Prop :=
  0 ≤ x ∧ x < (m.width : ℤ) ∧ 0 ≤ y ∧ y < (m.height : ℤ)

instance (m : Mask) (x y : ℤ) : Decidable (maskInBounds m x y) := by
  unfold maskInBounds; infer_instance

/-- The in-bounds mask samples under the 5×5 structuring element
centred at `(x, y)`.  Out-of-bounds cells are skipped, matching
OpenCV's default morphology border handling (`+inf` padding for
erosion, `-inf` padding for dilation). -/
def window5 (m : Mask) (x y : ℤ) : List ℕ :=
  kernel5.filterMap fun d =>
    if maskInBounds m (x + d.1) (y + d.2) then some (m.pix (x + d.1) (y + d.2)) else none

/-- `cv2.dilate` with the 5×5 kernel: pointwise maximum over the
structuring-element window. -/
def dilate5 (m : Mask) : Mask :=
  ⟨m.width, m.height, fun x y => (window5 m x y).foldr max 0⟩

/-- `cv2.erode` with the 5×5 kernel: pointwise minimum over the
structuring-element window. -/
def erode5 (m : Mask) : Mask :=
  ⟨m.width, m.height, fun x y => (window5 m x y).foldr min 255⟩

/-- The two `cv2.morphologyEx` operation codes the source uses:
`cv2.MORPH_CLOSE` and `cv2.MORPH_OPEN`. -/
inductive MorphOp where
  | morphClose
  | morphOpen
deriving DecidableEq, Repr

/-- `cv2.morphologyEx(mask, op, kernel)` for the 5×5 kernel: closing is
dilation followed by erosion; opening is erosion followed by
dilation. -/
def morphologyEx (m : Mask) (op : MorphOp) : Mask :=
  match op with
  | .morphClose => erode5 (dilate5 m)
  | .morphOpen => dilate5 (erode5 m)

/-- The mask construction of `segmentar_folha` (src/app.py lines
56–69): convert to HSV, threshold against the green band, then apply
morphological closing followed by opening. -/
def leafMask (cv : Cv) (imagem : Image) : Mask :=
  morphologyEx (morphologyEx (inRangeMask (cv.cvtColor imagem) lower_green upper_green)
      MorphOp.morphClose)
    MorphOp.morphOpen

/-- The contour extraction call of `segmentar_folha` (src/app.py line
72): `cv2.findContours(mask, RETR_EXTERNAL, CHAIN_APPROX_SIMPLE)`. -/
def leafContours (cv : Cv) (imagem : Image) : List Contour :=
  cv.findContours (leafMask cv imagem) RetrievalMode.external ApproxMode.chainApproxSimple

/-- Twice the signed shoelace sum over the closed polygon whose first
vertex is `p0` and whose remaining travel is the argument list (the
last vertex closes back to `p0`). -/
def shoelaceAux (p0 : ℤ × ℤ) : List (ℤ × ℤ) → ℤ
  | [] => 0
  | [p] => p.1 * p0.2 - p0.1 * p.2
  | p :: q :: rest => (p.1 * q.2 - q.1 * p.2) + shoelaceAux p0 (q :: rest)

/-- `cv2.contourArea`: the absolute value of the shoelace-formula
polygon area over the contour's boundary points. -/
def contourArea (c : Contour) : ℚ :=
  match c with
  | [] => 0
  | p :: rest => |((shoelaceAux p (p :: rest) : ℤ) : ℚ)| / 2

/-- Python's `max(contornos, key=cv2.contourArea)` on the non-empty
list `c :: cs`: fold left, replacing the current best only on a
strictly greater key (so the first maximum wins ties, as in Python). -/
def maxByArea (c : Contour) (cs : List Contour) : Contour :=
  cs.foldl (fun best x => if contourArea best < contourArea x then x else best) c

/-- Error message returned when no QR code is detected. -/
def qrErro : String := "QR Code não detectado. Não foi possível calcular a escala."

/-- Error message returned when no contour is found. -/
def folhaErro : String := "Nenhuma folha foi detectada. Tente ajustar os limites de cor."

/-- Result of `segmentar_folha`.  The Python function returns the
triple `(imagem_processada, area_cm2, erro)` and additionally mutates
its argument in place (the drawing calls write into the caller's
buffer); `imagem_final` records the state of the caller's image buffer
after the call returns. -/
structure SegResult where
  imagem_final : Image
  imagem_processada : Option Image
  area_cm2 : Option ℝ
  erro : Option String

/-- Embedding of `segmentar_folha` (src/app.py lines 38–89): obtain the
scale from the QR code (failing with `qrErro` if absent), build the
HSV-thresholded and morphologically cleaned mask, extract external
contours (failing with `folhaErro` if none), select the largest contour
by `contourArea`, convert its pixel area to cm² by multiplying with the
squared scale, and draw the contour (green, thickness 2) and the area
label (at `(50, 50)`, blue, thickness 2) onto the input image, which is
then returned. -/
noncomputable def segmentar_folha (cv : Cv) (imagem : Image) : SegResult :=
  match detectar_qrcode_e_calcular_escala cv imagem with
  | none => ⟨imagem, none, none, some qrErro⟩
  | some escala_qr =>
    match leafContours cv imagem with
    | [] => ⟨imagem, none, none, some folhaErro⟩
    | c :: cs =>
      let maior_contorno := maxByArea c cs
      let area_pixels := contourArea maior_contorno
      let area_cm2 : ℝ := (area_pixels : ℝ) * escala_qr ^ 2
      let anotada :=
        cv.putText (cv.drawContours imagem [maior_contorno] (-1) ⟨0, 255, 0⟩ 2)
          area_cm2 (50, 50) ⟨255, 0, 0⟩ 2
      ⟨anotada, some anotada, some area_cm2, none⟩

/-! ### Concrete fixtures

Concrete images, corner sets, contours and backend instances used to
exercise the embedding at specific inputs. -/

/-- A 1×1 all-black test image. -/
def imgBlack : Image := ⟨1, 1, fun _ _ => ⟨0, 0, 0⟩⟩

/-- Corners of the unit axis-aligned square (whole-pixel positions). -/
def sqCorners : Corners := ⟨⟨0, 0⟩, ⟨1, 0⟩, ⟨1, 1⟩, ⟨0, 1⟩⟩

/-- Four coincident corners: the degenerate case of spec §7/§8
(scenario D). -/
def degCorners : Corners := ⟨⟨10, 10⟩, ⟨10, 10⟩, ⟨10, 10⟩, ⟨10, 10⟩⟩

/-- Corners with a fractional coordinate: corner 1 sits at x = 3/2, so
the 0–1 side has true length 3/2 but truncates to length 1. -/
def fracCorners : Corners := ⟨⟨0, 0⟩, ⟨3/2, 0⟩, ⟨0, 0⟩, ⟨0, 1⟩⟩

/-- Sub-pixel perturbation of `sqCorners`: every coordinate truncates
to the same integers as the unit square's. -/
def subpixCorners : Corners := ⟨⟨1/4, 1/2⟩, ⟨3/2, 1/2⟩, ⟨5/4, 7/4⟩, ⟨1/2, 3/2⟩⟩

/-- Boundary contour of a unit square (shoelace area 1). -/
def sqContour : Contour := [(0, 0), (1, 0), (1, 1), (0, 1)]

/-- Boundary contour of a 2×2 square (shoelace area 4). -/
def bigContour : Contour := [(0, 0), (2, 0), (2, 2), (0, 2)]

/-- Backend whose detector never finds a QR code; all other
capabilities are inert. -/
def cvAbsent : Cv :=
  ⟨fun _ => none, fun i => i, fun _ _ _ => [], fun i _ _ _ _ => i, fun i _ _ _ _ => i⟩

/-- Backend whose detector reports four coincident corners. -/
def cvDegen : Cv :=
  ⟨fun _ => some degCorners, fun i => i, fun _ _ _ => [], fun i _ _ _ _ => i,
    fun i _ _ _ _ => i⟩

/-- Backend whose detector reports the unit square and whose contour
extraction finds the single unit-square contour. -/
def cvSquare : Cv :=
  ⟨fun _ => some sqCorners, fun i => i, fun _ _ _ => [sqContour], fun i _ _ _ _ => i,
    fun i _ _ _ _ => i⟩

/-- Backend whose contour extraction finds two disjoint blobs of areas
1 < 4 (smaller first). -/
def cvTwoBlobs : Cv :=
  ⟨fun _ => some sqCorners, fun i => i, fun _ _ _ => [sqContour, bigContour],
    fun i _ _ _ _ => i, fun i _ _ _ _ => i⟩

/-- Backend whose detector reports `fracCorners` (a fractional corner
coordinate). -/
def cvFrac : Cv :=
  ⟨fun _ => some fracCorners, fun i => i, fun _ _ _ => [], fun i _ _ _ _ => i,
    fun i _ _ _ _ => i⟩

/-- Backend whose detector reports `subpixCorners`. -/
def cvSubpix : Cv :=
  ⟨fun _ => some subpixCorners, fun i => i, fun _ _ _ => [], fun i _ _ _ _ => i,
    fun i _ _ _ _ => i⟩

/-- Backend with a pixel-level drawing model: `drawContours` paints
every listed boundary point with the requested color (a sound sample of
what OpenCV's in-place thickness-2 drawing does to those pixels), and
`putText` renders nothing at this label position. -/
def cvDraw : Cv :=
  ⟨fun _ => some sqCorners, fun i => i, fun _ _ _ => [sqContour],
    fun im cs _ col _ =>
      ⟨im.width, im.height, fun x y => if cs.any (fun c => List.contains c (x, y)) then col else im.pix x y⟩,
    fun i _ _ _ _ => i⟩

/-- The corner relabelling of spec §8: swap which pair of opposite
corners is called "width" (0–1) and which "height" (2–3). -/
def swapPairs (v : Corners) : Corners := ⟨v.p2, v.p3, v.p0, v.p1⟩

/-- Corners of a perfect axis-aligned square with side `S`, placed at
the whole-pixel position `(x, y)`, in the 0–1 / 2–3 side pairing the
scale computation assumes. -/
def intSquareCorners (x y : ℤ) (S : ℕ) : Corners :=
  ⟨⟨(x : ℚ), (y : ℚ)⟩, ⟨(x : ℚ) + S, (y : ℚ)⟩,
    ⟨(x : ℚ) + S, (y : ℚ) + S⟩, ⟨(x : ℚ), (y : ℚ) + S⟩⟩

/-! ### Helper lemmas -/

theorem truncQ_intCast (z : ℤ) : truncQ (z : ℚ) = z := by
  unfold truncQ
  split
  · exact Int.floor_intCast z
  · exact Int.ceil_intCast z

theorem truncPt_intCast (a b : ℤ) : truncPt ⟨(a : ℚ), (b : ℚ)⟩ = (a, b) := by
  simp [truncPt, truncQ_intCast]

theorem linalgNorm_of_sq (a b : ℤ × ℤ) (n : ℕ) (h : sqNorm a b = (n : ℤ) ^ 2) :
    linalgNorm a b = n := by
  rw [linalgNorm, h]
  push_cast
  exact Real.sqrt_sq (Nat.cast_nonneg n)

theorem maxByArea_mem (cs : List Contour) : ∀ c, maxByArea c cs ∈ c :: cs := by
  induction cs with
  | nil => intro c; simp [maxByArea]
  | cons x xs ih =>
    intro c
    have h := ih (if contourArea c < contourArea x then x else c)
    simp only [maxByArea, List.foldl_cons] at h ⊢
    rcases List.mem_cons.mp h with h1 | h2
    · rw [h1]
      split <;> simp
    · simp [h2]

theorem le_maxByArea (cs : List Contour) :
    ∀ c, ∀ y ∈ c :: cs, contourArea y ≤ contourArea (maxByArea c cs) := by
  induction cs with
  | nil => intro c y hy; simp at hy; simp [maxByArea, hy]
  | cons x xs ih =>
    intro c y hy
    simp only [maxByArea, List.foldl_cons]
    rcases List.mem_cons.mp hy with h1 | h2
    · subst h1
      have := ih (if contourArea y < contourArea x then x else y)
        (if contourArea y < contourArea x then x else y) (List.mem_cons_self _ _)
      refine le_trans ?_ this
      split <;> simp_all [le_of_lt]
    · rcases List.mem_cons.mp h2 with h3 | h4
      · subst h3
        have := ih (if contourArea c < contourArea y then y else c)
          (if contourArea c < contourArea y then y else c) (List.mem_cons_self _ _)
        refine le_trans ?_ this
        split <;> simp_all [le_of_not_lt]
      · exact ih (if contourArea c < contourArea x then x else c) y (List.mem_cons_of_mem _ h4)

theorem segmentar_folha_qr_falha (cv : Cv) (imagem : Image)
    (hv : cv.qrCorners imagem = none) :
    segmentar_folha cv imagem = ⟨imagem, none, none, some qrErro⟩ := by
  rw [segmentar_folha, detectar_qrcode_e_calcular_escala, hv]

theorem segmentar_folha_sem_contorno (cv : Cv) (imagem : Image) (v : Corners)
    (hv : cv.qrCorners imagem = some v) (hc : leafContours cv imagem = []) :
    segmentar_folha cv imagem = ⟨imagem, none, none, some folhaErro⟩ := by
  rw [segmentar_folha, detectar_qrcode_e_calcular_escala, hv]
  simp only [hc]

theorem segmentar_folha_sucesso (cv : Cv) (imagem : Image) (v : Corners)
    (c : Contour) (cs : List Contour)
    (hv : cv.qrCorners imagem = some v) (hc : leafContours cv imagem = c :: cs) :
    segmentar_folha cv imagem =
      ⟨cv.putText (cv.drawContours imagem [maxByArea c cs] (-1) ⟨0, 255, 0⟩ 2)
          ((contourArea (maxByArea c cs) : ℝ) * (escalaOf v) ^ 2) (50, 50) ⟨255, 0, 0⟩ 2,
        some (cv.putText (cv.drawContours imagem [maxByArea c cs] (-1) ⟨0, 255, 0⟩ 2)
          ((contourArea (maxByArea c cs) : ℝ) * (escalaOf v) ^ 2) (50, 50) ⟨255, 0, 0⟩ 2),
        some ((contourArea (maxByArea c cs) : ℝ) * (escalaOf v) ^ 2),
        none⟩ := by
  rw [segmentar_folha, detectar_qrcode_e_calcular_escala, hv]
  simp only [hc]

/-! ### Claim C1 -/

/-- C1: the claim says that when both measured pixel lengths are zero
(all fiducial corners coincident) the scale estimation rejects with a
DegenerateScale failure.  The code has no such guard: with four
coincident corners the estimator still returns a scale value, namely
the division of `tamanho_real_cm` by the zero maximum side length —
exactly the division-by-zero the spec demands be rejected (in the
Python source this evaluates to float infinity). -/
theorem c1_degenerate_corners_not_rejected :
    detectar_qrcode_e_calcular_escala cvDegen imgBlack = some (tamanho_real_cm / 0) ∧
    (detectar_qrcode_e_calcular_escala cvDegen imgBlack).isSome = true ∧
    max (linalgNorm (truncPt degCorners.p0) (truncPt degCorners.p1))
        (linalgNorm (truncPt degCorners.p2) (truncPt degCorners.p3)) = 0 := by
  have hn : linalgNorm (truncPt degCorners.p0) (truncPt degCorners.p1) = 0 := by
    have : sqNorm (truncPt degCorners.p0) (truncPt degCorners.p1) = ((0 : ℕ) : ℤ) ^ 2 := by
      norm_num [sqNorm, truncPt, truncQ, degCorners]
    simpa using linalgNorm_of_sq _ _ 0 this
  have hn' : linalgNorm (truncPt degCorners.p2) (truncPt degCorners.p3) = 0 := by
    have : sqNorm (truncPt degCorners.p2) (truncPt degCorners.p3) = ((0 : ℕ) : ℤ) ^ 2 := by
      norm_num [sqNorm, truncPt, truncQ, degCorners]
    simpa using linalgNorm_of_sq _ _ 0 this
  refine ⟨?_, ?_, ?_⟩
  · show some (escalaOf degCorners) = _
    rw [escalaOf, hn, hn']
    norm_num
  · rfl
  · rw [hn, hn']
    norm_num

/-! ### Claim C2 -/

/-- C2, counterexample: the claim computes the scale from the
Euclidean distances between the detector's corner coordinates as
returned.  The code first truncates the coordinates to integers, so
for `fracCorners` (side 0–1 of true length 3/2, side 2–3 of length 1)
the code returns 3.6 / 1 = 3.6 while the claimed formula gives
3.6 / (3/2) = 2.4. -/
theorem c2_scale_formula_counterexample :
    detectar_qrcode_e_calcular_escala cvFrac imgBlack = some (escalaOf fracCorners) ∧
    escalaOf fracCorners = 36 / 10 ∧
    specScaleNoTrunc fracCorners = 12 / 5 ∧
    (36 / 10 : ℝ) ≠ 12 / 5 := by
  have h01 : linalgNorm (truncPt fracCorners.p0) (truncPt fracCorners.p1) = 1 := by
    have : sqNorm (truncPt fracCorners.p0) (truncPt fracCorners.p1) = ((1 : ℕ) : ℤ) ^ 2 := by
      norm_num [sqNorm, truncPt, truncQ, fracCorners]
    simpa using linalgNorm_of_sq _ _ 1 this
  have h23 : linalgNorm (truncPt fracCorners.p2) (truncPt fracCorners.p3) = 1 := by
    have : sqNorm (truncPt fracCorners.p2) (truncPt fracCorners.p3) = ((1 : ℕ) : ℤ) ^ 2 := by
      norm_num [sqNorm, truncPt, truncQ, fracCorners]
    simpa using linalgNorm_of_sq _ _ 1 this
  refine ⟨rfl, ?_, ?_, by norm_num⟩
  · rw [escalaOf, h01, h23, tamanho_real_cm]
    norm_num
  · rw [specScaleNoTrunc, tamanho_real_cm]
    have e1 : Real.sqrt (((fracCorners.p0.x - fracCorners.p1.x : ℚ) : ℝ) ^ 2 +
        ((fracCorners.p0.y - fracCorners.p1.y : ℚ) : ℝ) ^ 2) = 3 / 2 := by
      have : (((fracCorners.p0.x - fracCorners.p1.x : ℚ) : ℝ) ^ 2 +
          ((fracCorners.p0.y - fracCorners.p1.y : ℚ) : ℝ) ^ 2) = (3 / 2 : ℝ) ^ 2 := by
        norm_num [fracCorners]
      rw [this]
      exact Real.sqrt_sq (by norm_num)
    have e2 : Real.sqrt (((fracCorners.p2.x - fracCorners.p3.x : ℚ) : ℝ) ^ 2 +
        ((fracCorners.p2.y - fracCorners.p3.y : ℚ) : ℝ) ^ 2) = 1 := by
      have : (((fracCorners.p2.x - fracCorners.p3.x : ℚ) : ℝ) ^ 2 +
          ((fracCorners.p2.y - fracCorners.p3.y : ℚ) : ℝ) ^ 2) = (1 : ℝ) ^ 2 := by
        norm_num [fracCorners]
      rw [this]
      simp [Real.sqrt_one]
    rw [e1, e2]
    norm_num

/-- C2 (amended): whenever the detector returns corners, the computed
scale factor equals 3.6 divided by the larger of the two Euclidean
side lengths measured on the corner coordinates truncated to integers;
in particular, corners at whole-pixel positions forming a perfect
axis-aligned square of `S` pixels per side give exactly `3.6 / S`. -/
theorem c2_scale_formula (cv : Cv) (img : Image) (v : Corners)
    (h : cv.qrCorners img = some v) :
    detectar_qrcode_e_calcular_escala cv img =
      some (tamanho_real_cm /
        max (linalgNorm (truncPt v.p0) (truncPt v.p1))
            (linalgNorm (truncPt v.p2) (truncPt v.p3))) ∧
    (∀ (x y : ℤ) (S : ℕ), 0 < S → v = intSquareCorners x y S →
      detectar_qrcode_e_calcular_escala cv img = some (tamanho_real_cm / (S : ℝ))) := by
  have hdet : detectar_qrcode_e_calcular_escala cv img = some (escalaOf v) := by
    rw [detectar_qrcode_e_calcular_escala, h]
  constructor
  · rw [hdet, escalaOf]
  · rintro x y S hS rfl
    have hp01 : linalgNorm (truncPt (intSquareCorners x y S).p0)
        (truncPt (intSquareCorners x y S).p1) = S := by
      have hc : truncPt (intSquareCorners x y S).p1 = (x + S, y) := by
        have : ((x : ℚ) + S) = ((x + S : ℤ) : ℚ) := by push_cast; ring
        simp only [intSquareCorners, this]
        exact truncPt_intCast _ _
      rw [show (intSquareCorners x y S).p0 = ⟨(x : ℚ), (y : ℚ)⟩ from rfl] at *
      rw [truncPt_intCast, hc]
      exact linalgNorm_of_sq _ _ S (by simp [sqNorm])
    have hp23 : linalgNorm (truncPt (intSquareCorners x y S).p2)
        (truncPt (intSquareCorners x y S).p3) = S := by
      have hc2 : truncPt (intSquareCorners x y S).p2 = (x + S, y + S) := by
        have hx : ((x : ℚ) + S) = ((x + S : ℤ) : ℚ) := by push_cast; ring
        have hy : ((y : ℚ) + S) = ((y + S : ℤ) : ℚ) := by push_cast; ring
        simp only [intSquareCorners, hx, hy]
        exact truncPt_intCast _ _
      have hc3 : truncPt (intSquareCorners x y S).p3 = (x, y + S) := by
        have hy : ((y : ℚ) + S) = ((y + S : ℤ) : ℚ) := by push_cast; ring
        simp only [intSquareCorners, hy]
        exact truncPt_intCast _ _
      rw [hc2, hc3]
      exact linalgNorm_of_sq _ _ S (by simp [sqNorm])
    rw [hdet, escalaOf, hp01, hp23, max_self]

/-- C2 witness: the unit-square backend.  The detector reports the
unit square at the origin, and the pipeline computes scale exactly
3.6 / 1. -/
theorem c2_scale_formula_witness :
    cvSquare.qrCorners imgBlack = some sqCorners ∧ 0 < 1 ∧
    sqCorners = intSquareCorners 0 0 1 ∧
    detectar_qrcode_e_calcular_escala cvSquare imgBlack = some (tamanho_real_cm / ((1 : ℕ) : ℝ)) := by
  have hsq : sqCorners = intSquareCorners 0 0 1 := by
    simp [sqCorners, intSquareCorners]
  exact ⟨rfl, one_pos, hsq,
    (c2_scale_formula cvSquare imgBlack sqCorners rfl).2 0 0 1 one_pos hsq⟩

/-! ### Claim C8 -/

/-- C8: when the two measured sides have equal (truncated) pixel
lengths, swapping which corner pair is labelled "width" and which
"height" leaves the computed scale unchanged. -/
theorem c8_swap_invariance (v : Corners)
    (_h : linalgNorm (truncPt v.p0) (truncPt v.p1) =
      linalgNorm (truncPt v.p2) (truncPt v.p3)) :
    escalaOf (swapPairs v) = escalaOf v := by
  simp only [escalaOf, swapPairs]
  rw [max_comm]

/-- C8 witness: the unit square has both measured sides of length 1,
and swapping the labelled pairs leaves its scale unchanged. -/
theorem c8_swap_invariance_witness :
    linalgNorm (truncPt sqCorners.p0) (truncPt sqCorners.p1) =
      linalgNorm (truncPt sqCorners.p2) (truncPt sqCorners.p3) ∧
    escalaOf (swapPairs sqCorners) = escalaOf sqCorners := by
  have h01 : linalgNorm (truncPt sqCorners.p0) (truncPt sqCorners.p1) = 1 := by
    have : sqNorm (truncPt sqCorners.p0) (truncPt sqCorners.p1) = ((1 : ℕ) : ℤ) ^ 2 := by
      norm_num [sqNorm, truncPt, truncQ, sqCorners]
    simpa using linalgNorm_of_sq _ _ 1 this
  have h23 : linalgNorm (truncPt sqCorners.p2) (truncPt sqCorners.p3) = 1 := by
    have : sqNorm (truncPt sqCorners.p2) (truncPt sqCorners.p3) = ((1 : ℕ) : ℤ) ^ 2 := by
      norm_num [sqNorm, truncPt, truncQ, sqCorners]
    simpa using linalgNorm_of_sq _ _ 1 this
  have heq : linalgNorm (truncPt sqCorners.p0) (truncPt sqCorners.p1) =
      linalgNorm (truncPt sqCorners.p2) (truncPt sqCorners.p3) := by rw [h01, h23]
  exact ⟨heq, c8_swap_invariance sqCorners heq⟩

/-! ### Claim C9 -/

/-- C9: the pipeline is deterministic — two runs of `segmentar_folha`
on the same unmodified image (with the same backend) produce identical
results, in particular bit-identical physical area values. -/
theorem c9_deterministic (cv : Cv) (img : Image) (r1 r2 : SegResult)
    (h1 : r1 = segmentar_folha cv img) (h2 : r2 = segmentar_folha cv img) :
    r1.area_cm2 = r2.area_cm2 ∧ r1 = r2 := by
  subst h1; subst h2
  exact ⟨rfl, rfl⟩

/-- C9 witness: two runs on the black test image with the
no-detection backend agree. -/
theorem c9_deterministic_witness :
    (segmentar_folha cvAbsent imgBlack).area_cm2 =
      (segmentar_folha cvAbsent imgBlack).area_cm2 ∧
    segmentar_folha cvAbsent imgBlack = segmentar_folha cvAbsent imgBlack :=
  c9_deterministic cvAbsent imgBlack _ _ rfl rfl

/-! ### Claim C10 -/

/-- C10: the scale is computed from the corner coordinates truncated
to integers, so detector outputs whose coordinates truncate to the
same integers yield the same scale — sub-pixel corner positions do not
affect the scale factor. -/
theorem c10_subpixel_invariance (cv : Cv) (img : Image) (v w : Corners)
    (hv : cv.qrCorners img = some v)
    (h0 : truncPt v.p0 = truncPt w.p0) (h1 : truncPt v.p1 = truncPt w.p1)
    (h2 : truncPt v.p2 = truncPt w.p2) (h3 : truncPt v.p3 = truncPt w.p3) :
    detectar_qrcode_e_calcular_escala cv img = some (escalaOf w) := by
  rw [detectar_qrcode_e_calcular_escala, hv]
  simp only [escalaOf, h0, h1, h2, h3]

/-- C10 witness: the sub-pixel corners `subpixCorners` truncate to the
unit square's corners, and the backend reporting them yields exactly
the unit square's scale. -/
theorem c10_subpixel_invariance_witness :
    cvSubpix.qrCorners imgBlack = some subpixCorners ∧
    truncPt subpixCorners.p0 = truncPt sqCorners.p0 ∧
    truncPt subpixCorners.p1 = truncPt sqCorners.p1 ∧
    truncPt subpixCorners.p2 = truncPt sqCorners.p2 ∧
    truncPt subpixCorners.p3 = truncPt sqCorners.p3 ∧
    detectar_qrcode_e_calcular_escala cvSubpix imgBlack = some (escalaOf sqCorners) := by
  have h0 : truncPt subpixCorners.p0 = truncPt sqCorners.p0 := by
    norm_num [truncPt, truncQ, subpixCorners, sqCorners]
  have h1 : truncPt subpixCorners.p1 = truncPt sqCorners.p1 := by
    norm_num [truncPt, truncQ, subpixCorners, sqCorners]
  have h2 : truncPt subpixCorners.p2 = truncPt sqCorners.p2 := by
    norm_num [truncPt, truncQ, subpixCorners, sqCorners]
  have h3 : truncPt subpixCorners.p3 = truncPt sqCorners.p3 := by
    norm_num [truncPt, truncQ, subpixCorners, sqCorners]
  exact ⟨rfl, h0, h1, h2, h3,
    c10_subpixel_invariance cvSubpix imgBlack subpixCorners sqCorners rfl h0 h1 h2 h3⟩

/-! ### Claim C3 -/

/-- C3: on every successful pipeline run the physical area equals the
selected contour's enclosed pixel area multiplied by the square of the
scale factor. -/
theorem c3_area_conversion (cv : Cv) (img : Image) (v : Corners)
    (c : Contour) (cs : List Contour)
    (hv : cv.qrCorners img = some v) (hc : leafContours cv img = c :: cs) :
    detectar_qrcode_e_calcular_escala cv img = some (escalaOf v) ∧
    (segmentar_folha cv img).erro = none ∧
    (segmentar_folha cv img).area_cm2 =
      some ((contourArea (maxByArea c cs) : ℝ) * (escalaOf v) ^ 2) := by
  rw [segmentar_folha_sucesso cv img v c cs hv hc]
  refine ⟨?_, rfl, rfl⟩
  rw [detectar_qrcode_e_calcular_escala, hv]

/-- C3 witness: on the unit-square backend the pipeline succeeds and
reports pixel area 1 times the squared scale. -/
theorem c3_area_conversion_witness :
    cvSquare.qrCorners imgBlack = some sqCorners ∧
    leafContours cvSquare imgBlack = [sqContour] ∧
    (segmentar_folha cvSquare imgBlack).area_cm2 =
      some ((contourArea (maxByArea sqContour []) : ℝ) * (escalaOf sqCorners) ^ 2) ∧
    contourArea (maxByArea sqContour []) = 1 :=
  ⟨rfl, rfl, (c3_area_conversion cvSquare imgBlack sqCorners sqContour [] rfl rfl).2.2,
    by norm_num [maxByArea, contourArea, shoelaceAux, sqContour]⟩

/-! ### Claim C4 -/

/-- C4, counterexample: the claim says a successful run leaves the
original input image unmodified and annotates a copy.  With the
pixel-level drawing backend `cvDraw` on the black test image the run
succeeds, yet the final state of the caller's image buffer differs
from the input at pixel `(0, 0)` (the contour's first boundary point
is painted green): the input image is annotated in place, and the
returned image is that same mutated buffer, not a copy. -/
theorem c4_copy_counterexample :
    (segmentar_folha cvDraw imgBlack).erro = none ∧
    (segmentar_folha cvDraw imgBlack).imagem_processada =
      some ((segmentar_folha cvDraw imgBlack).imagem_final) ∧
    (segmentar_folha cvDraw imgBlack).imagem_final.pix 0 0 ≠ imgBlack.pix 0 0 := by
  rw [segmentar_folha_sucesso cvDraw imgBlack sqCorners sqContour [] rfl rfl]
  refine ⟨rfl, rfl, ?_⟩
  decide

/-- C4 (amended): on every successful run the pipeline draws the
selected contour (thickness 2) and the area label (at offset (50, 50))
onto the input image in place — the returned processed image is the
final state of the caller's input buffer itself, not a copy, so the
original input image is modified whenever drawing changes any pixel. -/
theorem c4_annotation_in_place (cv : Cv) (img : Image) (v : Corners)
    (c : Contour) (cs : List Contour)
    (hv : cv.qrCorners img = some v) (hc : leafContours cv img = c :: cs) :
    (segmentar_folha cv img).imagem_processada =
      some ((segmentar_folha cv img).imagem_final) ∧
    (segmentar_folha cv img).imagem_final =
      cv.putText (cv.drawContours img [maxByArea c cs] (-1) ⟨0, 255, 0⟩ 2)
        ((contourArea (maxByArea c cs) : ℝ) * (escalaOf v) ^ 2) (50, 50) ⟨255, 0, 0⟩ 2 := by
  rw [segmentar_folha_sucesso cv img v c cs hv hc]
  exact ⟨rfl, rfl⟩

/-- C4 witness: the amended claim instantiated on the unit-square
backend. -/
theorem c4_annotation_in_place_witness :
    (segmentar_folha cvSquare imgBlack).imagem_processada =
      some ((segmentar_folha cvSquare imgBlack).imagem_final) ∧
    (segmentar_folha cvSquare imgBlack).imagem_final =
      cvSquare.putText (cvSquare.drawContours imgBlack [maxByArea sqContour []] (-1) ⟨0, 255, 0⟩ 2)
        ((contourArea (maxByArea sqContour []) : ℝ) * (escalaOf sqCorners) ^ 2) (50, 50) ⟨255, 0, 0⟩ 2 :=
  c4_annotation_in_place cvSquare imgBlack sqCorners sqContour [] rfl rfl

/-! ### Claim C5 -/

/-- C5: the segmentation stage thresholds the HSV image against the
inclusive band (35, 55, 50)–(90, 255, 255) componentwise (a pixel is
foreground, value 255, iff all three components are within the band),
then applies morphological closing (dilation followed by erosion) and
then opening (erosion followed by dilation), each with the 5×5 square
structuring element. -/
theorem c5_segmentation (cv : Cv) (img : Image) :
    leafMask cv img =
      morphologyEx (morphologyEx (inRangeMask (cv.cvtColor img) lower_green upper_green)
          MorphOp.morphClose)
        MorphOp.morphOpen ∧
    (∀ m : Mask, morphologyEx m MorphOp.morphClose = erode5 (dilate5 m)) ∧
    (∀ m : Mask, morphologyEx m MorphOp.morphOpen = dilate5 (erode5 m)) ∧
    (∀ x y : ℤ, (inRangeMask (cv.cvtColor img) lower_green upper_green).pix x y = 255 ↔
      pixInRange lower_green upper_green ((cv.cvtColor img).pix x y)) ∧
    (∀ d : ℤ × ℤ, d ∈ kernel5 ↔ -2 ≤ d.1 ∧ d.1 ≤ 2 ∧ -2 ≤ d.2 ∧ d.2 ≤ 2) := by
  refine ⟨rfl, fun m => rfl, fun m => rfl, ?_, ?_⟩
  · intro x y
    simp only [inRangeMask]
    split
    · simp_all
    · simp_all
  · intro d
    obtain ⟨a, b⟩ := d
    constructor
    · intro h
      fin_cases h <;> norm_num
    · rintro ⟨h1, h2, h3, h4⟩
      simp only at h1 h2 h3 h4
      interval_cases a <;> interval_cases b <;> decide

/-- C5 witness: the closing operator at a concrete mask, and a
concrete offset shown to belong to the 5×5 structuring element,
through the claim's theorem. -/
theorem c5_segmentation_witness :
    morphologyEx (inRangeMask (cvSquare.cvtColor imgBlack) lower_green upper_green)
        MorphOp.morphClose =
      erode5 (dilate5 (inRangeMask (cvSquare.cvtColor imgBlack) lower_green upper_green)) ∧
    ((2, -2) : ℤ × ℤ) ∈ kernel5 :=
  ⟨(c5_segmentation cvSquare imgBlack).2.1 _,
    ((c5_segmentation cvSquare imgBlack).2.2.2.2 (2, -2)).mpr (by norm_num)⟩

/-! ### Claim C6 -/

/-- C6: once a scale is available, contour extraction runs in
external-boundaries-only mode; an empty contour list yields the
no-target failure; otherwise the selected contour is a member of the
list with the greatest enclosed area, and on a two-blob list with
areas A1 < A2 the blob with area A2 is selected. -/
theorem c6_contour_selection (cv : Cv) (img : Image) (v : Corners)
    (hv : cv.qrCorners img = some v) :
    leafContours cv img =
      cv.findContours (leafMask cv img) RetrievalMode.external ApproxMode.chainApproxSimple ∧
    (leafContours cv img = [] →
      segmentar_folha cv img = ⟨img, none, none, some folhaErro⟩) ∧
    (∀ (c : Contour) (cs : List Contour), leafContours cv img = c :: cs →
      maxByArea c cs ∈ c :: cs ∧
      (∀ y ∈ c :: cs, contourArea y ≤ contourArea (maxByArea c cs)) ∧
      (segmentar_folha cv img).area_cm2 =
        some ((contourArea (maxByArea c cs) : ℝ) * (escalaOf v) ^ 2)) ∧
    (∀ c1 c2 : Contour, contourArea c1 < contourArea c2 → maxByArea c1 [c2] = c2) := by
  refine ⟨rfl, ?_, ?_, ?_⟩
  · intro hc
    exact segmentar_folha_sem_contorno cv img v hv hc
  · intro c cs hc
    refine ⟨maxByArea_mem cs c, le_maxByArea cs c, ?_⟩
    rw [segmentar_folha_sucesso cv img v c cs hv hc]
  · intro c1 c2 hlt
    simp [maxByArea, hlt]

/-- C6 witness: on the two-blob backend (areas 1 < 4) the pipeline
selects the larger blob and reports its area. -/
theorem c6_contour_selection_witness :
    leafContours cvTwoBlobs imgBlack = [sqContour, bigContour] ∧
    contourArea sqContour < contourArea bigContour ∧
    maxByArea sqContour [bigContour] = bigContour ∧
    (segmentar_folha cvTwoBlobs imgBlack).area_cm2 =
      some ((contourArea (maxByArea sqContour [bigContour]) : ℝ) * (escalaOf sqCorners) ^ 2) := by
  have hlt : contourArea sqContour < contourArea bigContour := by
    norm_num [contourArea, shoelaceAux, sqContour, bigContour]
  have h := c6_contour_selection cvTwoBlobs imgBlack sqCorners rfl
  exact ⟨rfl, hlt, h.2.2.2 sqContour bigContour hlt,
    (h.2.2.1 sqContour [bigContour] rfl).2.2⟩

/-! ### Claim C7 -/

/-- C7: every pipeline result is exactly one of a success (processed
image and area present, no error) or a failure (error present, no
image and no area) — never both, never neither; and when the fiducial
is absent the result is precisely the fiducial-not-found failure with
no image/area payload. -/
theorem c7_result_exclusive (cv : Cv) (img : Image) :
    (((segmentar_folha cv img).imagem_processada.isSome = true ∧
      (segmentar_folha cv img).area_cm2.isSome = true ∧
      (segmentar_folha cv img).erro = none) ∨
     ((segmentar_folha cv img).imagem_processada = none ∧
      (segmentar_folha cv img).area_cm2 = none ∧
      (segmentar_folha cv img).erro.isSome = true)) ∧
    ¬((segmentar_folha cv img).erro = none ∧ (segmentar_folha cv img).erro.isSome = true) ∧
    (cv.qrCorners img = none → segmentar_folha cv img = ⟨img, none, none, some qrErro⟩) := by
  refine ⟨?_, ?_, segmentar_folha_qr_falha cv img⟩
  · cases hv : cv.qrCorners img with
    | none => rw [segmentar_folha_qr_falha cv img hv]; right; exact ⟨rfl, rfl, rfl⟩
    | some v =>
      cases hc : leafContours cv img with
      | nil => rw [segmentar_folha_sem_contorno cv img v hv hc]; right; exact ⟨rfl, rfl, rfl⟩
      | cons c cs => rw [segmentar_folha_sucesso cv img v c cs hv hc]; left; exact ⟨rfl, rfl, rfl⟩
  · rintro ⟨h1, h2⟩
    rw [h1] at h2
    simp at h2

/-- C7 witness: on the backend whose detector finds nothing, the
pipeline returns exactly the fiducial-not-found failure with empty
image and area payloads. -/
theorem c7_result_exclusive_witness :
    segmentar_folha cvAbsent imgBlack = ⟨imgBlack, none, none, some qrErro⟩ :=
  (c7_result_exclusive cvAbsent imgBlack).2.2 rfl

end LeafApp
